import Mathlib

/-!
Verification of the overpass-diff-publisher pipeline (src/index.js, canonical
revision; src/unnamed/part_000, legacy revision).

The embedding models:
- the event data model (`Marker` / feature-change `FeatureCollection` objects);
- the `ExtractionStream._transform` annotator setting the `visible` property;
- the "batch by sequence" highland `consume` state machine;
- the `writer` dual-write publish step (data object, then `state.yaml`);
- `getCurrentSequence`, `sequenceToTimestamp`, `timestampToSequence`, and the
  initial-sequence selection in `main`.

JavaScript numbers are modelled as exact arithmetic (`Int` for sequence
numbers, `Rat` for timestamp arithmetic); strings as `String`; fallible or
throwing operations as `Option` / `Except` results; the two storage writes as
an oracle of per-operation outcomes together with the ordered trace of keys
whose writes completed successfully.
-/

/-- A GeoJSON feature inside a feature-change object. `fid` models `f.id`
(the annotator looks for the feature whose id is the string `"new"`), and
`visible` models `f.properties.visible`. -/
structure Feature where
  fid : String
  visible : Bool
deriving DecidableEq, Repr

/-- A stream event. `marker` models objects with `type === "Marker"`,
carrying `properties.status` (the strings `"start"` / `"end"`) and the
numeric value of `properties.sequenceNumber`. `change` models a
feature-change object, carrying `obj.id` (the operation kind string, e.g.
`"create"`, `"modify"`, `"delete"`) and `obj.features`. -/
inductive Event where
  | marker (status : String) (sequenceNumber : Int)
  | change (id : String) (features : List Feature)
deriving DecidableEq, Repr

/-- Tests whether an event is a feature change (not a marker). -/
def Event.isChange : Event → Bool
  | .marker _ _ => false
  | .change _ _ => true

/-- The in-place update `feature.properties.visible = vis` applied to the
first feature whose id is `"new"` (JS `features.find(f => f.id === "new")`).
Returns `none` when no such feature exists, modelling the `TypeError` the
JS code throws in that case. -/
def setNewVisible (vis : Bool) : List Feature → Option (List Feature)
  | [] => none
  | f :: fs =>
    if f.fid = "new" then some ({ f with visible := vis } :: fs)
    else
      match setNewVisible vis fs with
      | some fs2 => some (f :: fs2)
      | none => none

/-- `ExtractionStream._transform` (src/index.js lines 96-110): markers are
pushed through unchanged; for a feature change, the replacement feature
(id `"new"`) has its `visible` property set to `obj.id !== "delete"`.
`none` models the crash on a malformed event with no `"new"` feature. -/
def extTransform : Event → Option Event
  | .marker status n => some (.marker status n)
  | .change id feats =>
    match setNewVisible (id != "delete") feats with
    | some fs => some (.change id fs)
    | none => none

/-- The annotator applied to a whole stream, one event in, one event out,
order preserved; `none` if any event crashes the transform. -/
def annotateAll : List Event → Option (List Event)
  | [] => some []
  | x :: xs =>
    match extTransform x, annotateAll xs with
    | some y, some ys => some (y :: ys)
    | _, _ => none

/-- An emitted `[sequence, batch]` pair. The sequence slot is `Option Int`
because the batcher's `sequence` variable is initialised to `null`. -/
abbrev Batch := Option Int × List Event

/-- State of the "batch by sequence" consume callback (src/index.js lines
200-240): `batched` is the accumulating array, `sequence` the `let sequence
= null` variable. -/
structure BatchState where
  batched : List Event
  sequence : Option Int
deriving DecidableEq, Repr

/-- The initial batcher state: `batched = []`, `sequence = null`. -/
def initialState : BatchState := { batched := [], sequence := none }

/-- One step of the consume callback on a non-nil event `x` (src/index.js
lines 219-238): on a marker with status `"start"`, set `sequence`; on a
marker with status `"end"`, flush `batched` (only if non-empty) and reset
it; otherwise push `x` onto `batched`. Returns the updated state and the
list of batches pushed downstream by this step. -/
def batchStep (st : BatchState) (x : Event) : BatchState × List Batch :=
  match x with
  | .marker status n =>
    let st1 := if status = "start" then { st with sequence := some n } else st
    if status = "end" then
      ({ batched := [], sequence := st1.sequence },
       if st1.batched.isEmpty then [] else [(st1.sequence, st1.batched)])
    else (st1, [])
  | x => ({ st with batched := st.batched ++ [x] }, [])

/-- Runs the consume callback over a list of events, threading the state and
collecting every batch pushed downstream, in order. -/
def processEvents (st : BatchState) : List Event → BatchState × List Batch
  | [] => (st, [])
  | x :: xs =>
    let r1 := batchStep st x
    let r2 := processEvents r1.1 xs
    (r2.1, r1.2 ++ r2.2)

/-- The whole batcher on a finite stream: run the consume callback over the
events, then apply the `x === _.nil` end-of-stream branch (src/index.js
lines 210-217), which flushes `batched` if non-empty. -/
def runBatcher (events : List Event) : List Batch :=
  let r := processEvents initialState events
  r.2 ++ (if r.1.batched.isEmpty then [] else [(r.1.sequence, r.1.batched)])

/-- The sequence number of the last marker with status `"start"` in the
stream, starting from a prior value `s0`. -/
def lastStartFrom (s0 : Option Int) : List Event → Option Int
  | [] => s0
  | .marker status n :: xs =>
    lastStartFrom (if status = "start" then some n else s0) xs
  | .change _ _ :: xs => lastStartFrom s0 xs

/-- The sequence number of the last `"start"` marker of the stream, `none`
if the stream has none. -/
def lastStartSeq (events : List Event) : Option Int := lastStartFrom none events

/-- JS `sequence.toString().padStart(9, 0)`: left-pad with the character
`'0'` to length 9 (no-op on longer strings). -/
def padStart9 (s : String) : String :=
  String.mk (List.replicate (9 - s.length) '0') ++ s

/-- The sharded key stem of src/index.js lines 139-140:
`` s.slice(0, 3) + "/" + s.slice(3, 6) + "/" + s.slice(6, 9) `` over the
zero-padded decimal rendering of the sequence. -/
def sequencePath (sequence : Int) : String :=
  let s := padStart9 (toString sequence)
  s.take 3 ++ "/" ++ (s.drop 3).take 3 ++ "/" ++ (s.drop 6).take 3

/-- The key of the per-sequence data object under a sink path `pre`:
`` pre + sequencePath + ".json.gz" `` (src/index.js line 148 for S3, line
171 for the filesystem, with `path.resolve` modelled as concatenation). -/
def dataKey (pre : String) (sequence : Int) : String :=
  pre ++ sequencePath sequence ++ ".json.gz"

/-- The fixed state-object key under a sink path `pre`: `state.yaml`. -/
def stateKey (pre : String) : String := pre ++ "state.yaml"

/-- Outcomes of the two S3 `putObject` calls in `writer` (src/index.js lines
143-163): whether the data-object put and the state-object put would
succeed. -/
structure S3Behavior where
  dataOk : Bool
  stateOk : Bool
deriving DecidableEq, Repr

/-- The `case "s3":` branch of `writer` for one batch: await the data-object
put, then await the state-object put, inside one `try`; any failure jumps
to `catch` and surfaces the error via `callback(err)`. Returns the ordered
list of keys whose writes completed successfully, and `true` iff the
callback was invoked without an error. -/
def writerS3 (b : S3Behavior) (pre : String) (sequence : Int) :
    List String × Bool :=
  if b.dataOk then
    if b.stateOk then ([dataKey pre sequence, stateKey pre], true)
    else ([dataKey pre sequence], false)
  else ([], false)

/-- Outcomes of the three filesystem operations in the `case "file":` branch
of `writer` (src/index.js lines 165-179): `fs.mkdirs`, the data-object
`writeFile`, and the state-object `writeFile`. -/
structure FileBehavior where
  mkdirsOk : Bool
  dataOk : Bool
  stateOk : Bool
deriving DecidableEq, Repr

/-- The `case "file":` branch of `writer` for one batch: await `mkdirs`,
then the data-object write, then the state-object write, inside one `try`;
any failure jumps to `catch` and surfaces the error. Same result shape as
`writerS3`. -/
def writerFile (b : FileBehavior) (pre : String) (sequence : Int) :
    List String × Bool :=
  if b.mkdirsOk then
    if b.dataOk then
      if b.stateOk then ([dataKey pre sequence, stateKey pre], true)
      else ([dataKey pre sequence], false)
    else ([], false)
  else ([], false)

/-- The publish stage of the pipeline over a list of emitted batches:
`.flatMap(_.wrapCallback(writer(targetURI)))` invokes `writer` once per
batch, strictly sequentially, and `.errors(reject)` halts the pipeline at
the first callback error (no retry). `beh` gives the sink outcome for each
sequence. Returns the concatenated successful-write trace and whether the
whole run completed. -/
def publishAllS3 (beh : Int → S3Behavior) (pre : String) :
    List (Int × List Event) → List String × Bool
  | [] => ([], true)
  | (sequence, _) :: rest =>
    let r := writerS3 (beh sequence) pre sequence
    if r.2 then
      let r2 := publishAllS3 beh pre rest
      (r.1 ++ r2.1, r2.2)
    else (r.1, false)

/-- `sequenceToTimestamp` (src/index.js lines 52-53):
`new Date((sequence * 60 + 1347432900) * 1000)`, i.e. the instant expressed
in milliseconds since the Unix epoch, with JS numbers modelled exactly. -/
def sequenceToTimestamp (sequence : ℚ) : ℚ :=
  (sequence * 60 + 1347432900) * 1000

/-- `timestampToSequence` (src/index.js lines 55-56):
`Math.ceil((Date.parse(timestamp) / 1000 - 1347432900) / 60)`, taking the
already-parsed timestamp in milliseconds since the Unix epoch. -/
def timestampToSequence (ms : ℚ) : Int :=
  Int.ceil ((ms / 1000 - 1347432900) / 60)

/-- The parsed `state.yaml` document: `sequence` and `last_run`
(YAML.stringify at src/index.js lines 134-137). -/
structure PublishState where
  sequence : Int
  last_run : String
deriving DecidableEq, Repr

/-- The protocol of the parsed target URI, as switched on by
`getCurrentSequence` and `writer`. -/
inductive Protocol where
  | file
  | s3
  | other (name : String)
deriving DecidableEq, Repr

/-- `getCurrentSequence` (src/index.js lines 58-82): for `file:` and `s3:`
targets, read and parse the sink's `state.yaml` and return
`state.sequence + 1`; an unsupported protocol throws. `st` is the parse
result of the state object, `none` when the read or parse fails (a thrown
error, surfaced as `Except.error`). -/
def getCurrentSequence (proto : Protocol) (st : Option PublishState) :
    Except String Int :=
  match proto with
  | .file =>
    match st with
    | some state => .ok (state.sequence + 1)
    | none => .error "state read failed"
  | .s3 =>
    match st with
    | some state => .ok (state.sequence + 1)
    | none => .error "state read failed"
  | .other name => .error ("Unsupported protocol: " ++ name)

/-- JS truthiness of `options.initialSequence`: a `Number` option is truthy
iff it is present and non-zero. -/
def jsTruthy : Option Int → Bool
  | some n => n != 0
  | none => false

/-- The initial-sequence selection in `main` (src/index.js lines 115-123):
`if (options.initialSequence) ... else if (options.timestamp) ... else
await getCurrentSequence(targetURI)`. The timestamp option is modelled by
its `Date.parse` value in milliseconds (`none` when the flag is absent). -/
def resolveStart (initialSequence : Option Int) (timestamp : Option ℚ)
    (proto : Protocol) (st : Option PublishState) : Except String Int :=
  if jsTruthy initialSequence then .ok (initialSequence.getD 0)
  else
    match timestamp with
    | some ts => .ok (timestampToSequence ts)
    | none => getCurrentSequence proto st

/-- One step of the legacy revision's "batch by sequence" consume callback
(src/unnamed/part_000 lines 206-223). -/
def legacyBatchStep (st : BatchState) (x : Event) : BatchState × List Batch :=
  match x with
  | .marker status n =>
    let st1 := if status = "start" then { st with sequence := some n } else st
    if status = "end" then
      ({ batched := [], sequence := st1.sequence },
       if st1.batched.isEmpty then [] else [(st1.sequence, st1.batched)])
    else (st1, [])
  | x => ({ st with batched := st.batched ++ [x] }, [])

/-- The legacy revision's consume callback run over a list of events. -/
def legacyProcessEvents (st : BatchState) : List Event → BatchState × List Batch
  | [] => (st, [])
  | x :: xs =>
    let r1 := legacyBatchStep st x
    let r2 := legacyProcessEvents r1.1 xs
    (r2.1, r1.2 ++ r2.2)

/-- The legacy revision's whole batcher on a finite stream, including its
end-of-stream flush (src/unnamed/part_000 lines 197-204). -/
def legacyRunBatcher (events : List Event) : List Batch :=
  let r := legacyProcessEvents initialState events
  r.2 ++ (if r.1.batched.isEmpty then [] else [(r.1.sequence, r.1.batched)])

/-- A complete marker pair: a `"start"` marker for sequence `n`, the given
events, then the matching `"end"` marker. -/
def pairBlock (n : Int) (items : List Event) : List Event :=
  .marker "start" n :: (items ++ [.marker "end" n])

/-- A stream that is a concatenation of complete marker pairs. -/
def pairStream : List (Int × List Event) → List Event
  | [] => []
  | p :: ps => pairBlock p.1 p.2 ++ pairStream ps

/-- The `sequence` variable after one step: a `"start"` marker overwrites it
with its sequence number; every other event leaves it unchanged. -/
lemma batchStep_marker_sequence (st : BatchState) (status : String) (n : Int) :
    (batchStep st (.marker status n)).1.sequence
      = if status = "start" then some n else st.sequence := by
  by_cases hs : status = "start" <;> by_cases he : status = "end" <;>
    simp [batchStep, hs, he]

/-- The `sequence` variable after the whole run equals the number of the last
`"start"` marker, defaulting to its prior value. -/
lemma processEvents_sequence (es : List Event) : ∀ st : BatchState,
    (processEvents st es).1.sequence = lastStartFrom st.sequence es := by
  induction es with
  | nil => intro st; rfl
  | cons x xs ih =>
    intro st
    cases x with
    | marker status n =>
      show (processEvents (batchStep st (.marker status n)).1 xs).1.sequence = _
      rw [ih, batchStep_marker_sequence]
      rfl
    | change id fs =>
      show (processEvents (batchStep st (.change id fs)).1 xs).1.sequence = _
      rw [ih]
      rfl

/-- Feature-change events are appended to `batched` one by one, pushing no
batch downstream. -/
lemma processEvents_changes (items : List Event) : ∀ (rest : List Event)
    (st : BatchState), (∀ e ∈ items, e.isChange = true) →
    processEvents st (items ++ rest)
      = processEvents { st with batched := st.batched ++ items } rest := by
  induction items with
  | nil => intro rest st _; simp
  | cons e items ih =>
    intro rest st h
    have he := h e (List.mem_cons_self e items)
    cases e with
    | marker s n => simp [Event.isChange] at he
    | change id fs =>
      have h2 : ∀ x ∈ items, x.isChange = true :=
        fun x hx => h x (List.mem_cons_of_mem _ hx)
      simp only [List.cons_append, processEvents, batchStep, List.nil_append,
        List.append_eq]
      rw [ih rest { st with batched := st.batched ++ [Event.change id fs] } h2]
      simp [List.append_assoc]

/-- Processing one complete non-empty marker pair from an empty accumulation
pushes exactly the batch of that pair, with the sequence of its `"start"`
marker, and returns to an empty accumulation. -/
lemma processEvents_pairBlock (n : Int) (items rest : List Event)
    (s0 : Option Int) (hne : items ≠ [])
    (hch : ∀ e ∈ items, e.isChange = true) :
    processEvents { batched := [], sequence := s0 } (pairBlock n items ++ rest)
      = ((processEvents { batched := [], sequence := some n } rest).1,
         (some n, items)
           :: (processEvents { batched := [], sequence := some n } rest).2) := by
  have hassoc : pairBlock n items ++ rest
      = .marker "start" n :: (items ++ (.marker "end" n :: rest)) := by
    simp [pairBlock]
  have hstep : batchStep { batched := [], sequence := s0 } (.marker "start" n)
      = ({ batched := [], sequence := some n }, []) := by simp [batchStep]
  have hstep2 : batchStep { batched := items, sequence := some n }
        (.marker "end" n)
      = ({ batched := [], sequence := some n }, [(some n, items)]) := by
    cases items with
    | nil => exact absurd rfl hne
    | cons a l => simp [batchStep]
  rw [hassoc]
  simp only [processEvents, hstep, List.nil_append]
  rw [processEvents_changes items (.marker "end" n :: rest)
    { batched := [], sequence := some n } hch]
  simp only [processEvents, List.nil_append, hstep2, List.singleton_append]

/-- Processing a concatenation of complete non-empty marker pairs from the
initial accumulation pushes exactly one batch per pair, in order, and ends
with an empty accumulation. -/
lemma processEvents_pairStream (pairs : List (Int × List Event)) :
    ∀ s0 : Option Int,
    (∀ p ∈ pairs, p.2 ≠ [] ∧ ∀ e ∈ p.2, e.isChange = true) →
    ∃ s1, processEvents { batched := [], sequence := s0 } (pairStream pairs)
      = ({ batched := [], sequence := s1 },
         pairs.map (fun p => ((some p.1 : Option Int), p.2))) := by
  induction pairs with
  | nil => intro s0 _; exact ⟨s0, rfl⟩
  | cons p ps ih =>
    intro s0 h
    obtain ⟨hne, hch⟩ := h p (List.mem_cons_self p ps)
    obtain ⟨s1, hs1⟩ := ih (some p.1) (fun q hq => h q (List.mem_cons_of_mem _ hq))
    refine ⟨s1, ?_⟩
    show processEvents _ (pairBlock p.1 p.2 ++ pairStream ps) = _
    rw [processEvents_pairBlock p.1 p.2 (pairStream ps) s0 hne hch, hs1]
    simp

/-- C1 (counterexample): the stream consisting of one complete `start`/`end`
marker pair with no feature change between the markers contains one complete
pair, yet the batcher emits no batch at all (the `end` branch flushes only
when `batched.length > 0`), refuting "exactly one Batch per pair" for
arbitrary streams. -/
theorem batcher_empty_pair_emits_no_batch :
    runBatcher (pairStream [(1, ([] : List Event))]) = []
    ∧ (runBatcher (pairStream [(1, ([] : List Event))])).length ≠ 1 := by
  refine ⟨by decide, by decide⟩

/-- C1 (amended): for every stream that is a concatenation of complete
`start`/`end` marker pairs, each with at least one feature-change event
strictly between its markers, the batcher emits exactly one batch per pair,
containing all and only the feature changes strictly between that pair's
markers, in original order, tagged with the pair's `start` sequence
number. -/
theorem batcher_one_batch_per_nonempty_pair (pairs : List (Int × List Event))
    (h : ∀ p ∈ pairs, p.2 ≠ [] ∧ ∀ e ∈ p.2, e.isChange = true) :
    runBatcher (pairStream pairs)
      = pairs.map (fun p => ((some p.1 : Option Int), p.2)) := by
  obtain ⟨s1, hs⟩ := processEvents_pairStream pairs none h
  simp [runBatcher, initialState, hs]

/-- C1 (witness): the amended theorem applied to a concrete two-pair
stream. -/
theorem batcher_one_batch_per_nonempty_pair_witness :
    (∀ p ∈ ([(1, [Event.change "create" [⟨"new", true⟩]]),
             (2, [Event.change "modify" [⟨"new", true⟩],
                  Event.change "delete" [⟨"new", false⟩]])]
            : List (Int × List Event)),
        p.2 ≠ [] ∧ ∀ e ∈ p.2, e.isChange = true)
    ∧ runBatcher (pairStream
        [(1, [Event.change "create" [⟨"new", true⟩]]),
         (2, [Event.change "modify" [⟨"new", true⟩],
              Event.change "delete" [⟨"new", false⟩]])])
      = [(some 1, [Event.change "create" [⟨"new", true⟩]]),
         (some 2, [Event.change "modify" [⟨"new", true⟩],
                   Event.change "delete" [⟨"new", false⟩]])] :=
  ⟨by decide, batcher_one_batch_per_nonempty_pair _ (by decide)⟩

/-- C6: if the stream ends while the accumulation is non-empty (so no `end`
marker flushed it), the batcher emits exactly one final batch holding the
pending items, tagged with the sequence number of the last `"start"` marker
observed. -/
theorem batcher_end_of_stream_flush (events : List Event)
    (h : (processEvents initialState events).1.batched ≠ []) :
    runBatcher events
      = (processEvents initialState events).2
        ++ [(lastStartSeq events,
             (processEvents initialState events).1.batched)] := by
  have hseq : (processEvents initialState events).1.sequence
      = lastStartSeq events := by
    rw [processEvents_sequence]; rfl
  have hemp : (processEvents initialState events).1.batched.isEmpty = false := by
    cases hh : (processEvents initialState events).1.batched with
    | nil => exact absurd hh h
    | cons a l => rfl
  simp [runBatcher, hemp, hseq]

/-- C6 (witness): the end-of-stream flush theorem applied to a stream whose
last sequence never sees its `end` marker. -/
theorem batcher_end_of_stream_flush_witness :
    (processEvents initialState
        [Event.marker "start" 5,
         Event.change "create" [⟨"new", true⟩]]).1.batched ≠ []
    ∧ runBatcher [Event.marker "start" 5,
                  Event.change "create" [⟨"new", true⟩]]
      = (processEvents initialState
          [Event.marker "start" 5,
           Event.change "create" [⟨"new", true⟩]]).2
        ++ [(lastStartSeq [Event.marker "start" 5,
                           Event.change "create" [⟨"new", true⟩]],
             (processEvents initialState
               [Event.marker "start" 5,
                Event.change "create" [⟨"new", true⟩]]).1.batched)] :=
  ⟨by decide, batcher_end_of_stream_flush _ (by decide)⟩

/-- C9: the legacy revision's sequence batcher and the canonical revision's
sequence batcher emit exactly the same ordered list of `(sequence, batch)`
pairs on every input stream; the two revisions differ only downstream of
batching. -/
theorem legacy_batcher_matches_canonical (events : List Event) :
    legacyRunBatcher events = runBatcher events := by
  have hstep : ∀ st x, legacyBatchStep st x = batchStep st x := by
    intro st x; cases x <;> rfl
  have hproc : ∀ (es : List Event) (st : BatchState),
      legacyProcessEvents st es = processEvents st es := by
    intro es
    induction es with
    | nil => intro st; rfl
    | cons x xs ih =>
      intro st
      simp only [legacyProcessEvents, processEvents, hstep, ih]
  simp [legacyRunBatcher, runBatcher, hproc]

/-- C10: the sequence tagged onto an emitted batch always comes from the
batcher's `sequence` variable, which records the last `"start"` marker; the
`end` marker's own sequence number is ignored by `batchStep`; and a flush
(by an `end` marker or by end of stream) before any `"start"` marker tags
the batch with the unset initial value `none`. -/
theorem batch_sequence_from_last_start :
    (∀ (st : BatchState) (m1 m2 : Int),
        batchStep st (.marker "end" m1) = batchStep st (.marker "end" m2))
    ∧ (∀ (b : List Event) (s : Option Int) (m : Int),
        batchStep { batched := b, sequence := s } (.marker "end" m)
          = ({ batched := [], sequence := s },
             if b.isEmpty then [] else [(s, b)]))
    ∧ (∀ events : List Event,
        (processEvents initialState events).1.sequence = lastStartSeq events)
    ∧ runBatcher [Event.change "create" [⟨"new", true⟩], Event.marker "end" 7]
        = [(none, [Event.change "create" [⟨"new", true⟩]])]
    ∧ runBatcher [Event.change "create" [⟨"new", true⟩]]
        = [(none, [Event.change "create" [⟨"new", true⟩]])] := by
  refine ⟨?_, ?_, ?_, by decide, by decide⟩
  · intro st m1 m2; simp [batchStep]
  · intro b s m; simp [batchStep]
  · intro events; rw [processEvents_sequence]; rfl

/-- A successful `setNewVisible` leaves the first feature with id `"new"`
carrying exactly the written visibility. -/
lemma setNewVisible_find (vis : Bool) :
    ∀ feats fs : List Feature, setNewVisible vis feats = some fs →
      ∃ f, fs.find? (fun g => g.fid == "new") = some f ∧ f.visible = vis := by
  intro feats
  induction feats with
  | nil => intro fs h; simp [setNewVisible] at h
  | cons a l ih =>
    intro fs h
    by_cases ha : a.fid = "new"
    · rw [setNewVisible, if_pos ha] at h
      refine ⟨{ a with visible := vis }, ?_, rfl⟩
      obtain rfl : ({ a with visible := vis } :: l) = fs := by
        simpa using h
      rw [List.find?_cons_of_pos]
      simp [ha]
    · rw [setNewVisible, if_neg ha] at h
      cases hl : setNewVisible vis l with
      | none => rw [hl] at h; simp at h
      | some fs2 =>
        rw [hl] at h
        obtain rfl : (a :: fs2) = fs := by simpa using h
        obtain ⟨f, hf, hv⟩ := ih fs2 hl
        refine ⟨f, ?_, hv⟩
        rw [List.find?_cons_of_neg]
        · exact hf
        · simp [ha]

/-- C3: the annotator passes markers through unchanged, and every
feature-change event it emits carries, on its replacement feature (the
first feature with id `"new"`), a `visible` property equal to
`operationKind != "delete"`. -/
theorem annotator_sets_visible :
    (∀ (status : String) (n : Int),
        extTransform (.marker status n) = some (.marker status n))
    ∧ (∀ (id : String) (feats : List Feature) (res : Event),
        extTransform (.change id feats) = some res →
          ∃ fs f, res = .change id fs
            ∧ fs.find? (fun g => g.fid == "new") = some f
            ∧ f.visible = (id != "delete")) := by
  refine ⟨fun status n => rfl, ?_⟩
  intro id feats res h
  rw [extTransform] at h
  cases hs : setNewVisible (id != "delete") feats with
  | none => rw [hs] at h; simp at h
  | some fs =>
    rw [hs] at h
    obtain ⟨f, hf, hv⟩ := setNewVisible_find _ _ _ hs
    refine ⟨fs, f, ?_, hf, hv⟩
    simpa using h.symm

/-- C3 (witness): the annotator theorem applied to a concrete delete
event. -/
theorem annotator_sets_visible_witness :
    extTransform (.change "delete" [⟨"old", true⟩, ⟨"new", true⟩])
      = some (.change "delete" [⟨"old", true⟩, ⟨"new", false⟩])
    ∧ ∃ fs f,
        (Event.change "delete" [⟨"old", true⟩, ⟨"new", false⟩])
          = .change "delete" fs
        ∧ fs.find? (fun g => g.fid == "new") = some f
        ∧ f.visible = ("delete" != "delete") :=
  ⟨by decide,
   annotator_sets_visible.2 "delete" [⟨"old", true⟩, ⟨"new", true⟩]
     (Event.change "delete" [⟨"old", true⟩, ⟨"new", false⟩]) (by decide)⟩

/-- C2: in each `writer` invocation the state object is written only after
the data object write for the same sequence has completed: a failed data
write leaves the state object unwritten and surfaces an error; the callback
succeeds exactly when both writes succeed; on success the trace is the data
key followed by the state key; and in the publish stage a failed batch halts
the pipeline with nothing further written (no retry). Stated for both the
S3 and the filesystem branch of `writer`. -/
theorem publisher_state_write_after_data :
    (∀ (pre : String) (sequence : Int) (so : Bool),
        writerS3 { dataOk := false, stateOk := so } pre sequence = ([], false))
    ∧ (∀ (pre : String) (sequence : Int),
        writerS3 { dataOk := true, stateOk := false } pre sequence
          = ([dataKey pre sequence], false))
    ∧ (∀ (pre : String) (sequence : Int),
        writerS3 { dataOk := true, stateOk := true } pre sequence
          = ([dataKey pre sequence, stateKey pre], true))
    ∧ (∀ (pre : String) (sequence : Int) (b : S3Behavior),
        (writerS3 b pre sequence).2 = (b.dataOk && b.stateOk))
    ∧ (∀ (pre : String) (sequence : Int) (d s : Bool),
        writerFile { mkdirsOk := false, dataOk := d, stateOk := s } pre sequence
          = ([], false))
    ∧ (∀ (pre : String) (sequence : Int) (s : Bool),
        writerFile { mkdirsOk := true, dataOk := false, stateOk := s } pre sequence
          = ([], false))
    ∧ (∀ (pre : String) (sequence : Int),
        writerFile { mkdirsOk := true, dataOk := true, stateOk := false } pre sequence
          = ([dataKey pre sequence], false))
    ∧ (∀ (pre : String) (sequence : Int),
        writerFile { mkdirsOk := true, dataOk := true, stateOk := true } pre sequence
          = ([dataKey pre sequence, stateKey pre], true))
    ∧ (∀ (pre : String) (sequence : Int) (items : List Event)
          (rest : List (Int × List Event)) (so : Bool),
        publishAllS3 (fun _ => { dataOk := false, stateOk := so }) pre
            ((sequence, items) :: rest)
          = ([], false)) := by
  refine ⟨fun pre sequence so => rfl, fun pre sequence => rfl,
    fun pre sequence => rfl, ?_, fun pre sequence d s => rfl,
    fun pre sequence s => rfl, fun pre sequence => rfl,
    fun pre sequence => rfl, fun pre sequence items rest so => rfl⟩
  intro pre sequence b
  cases b with
  | mk d s => cases d <;> cases s <;> rfl

/-- C4: with a readable state object whose `sequence` field is `N` and no
override options, the startup position resolution returns `N + 1`, for both
supported sink protocols. -/
theorem resolve_start_resumes_after_state (N : Int) (lr : String) :
    getCurrentSequence Protocol.file (some { sequence := N, last_run := lr })
      = .ok (N + 1)
    ∧ getCurrentSequence Protocol.s3 (some { sequence := N, last_run := lr })
      = .ok (N + 1)
    ∧ resolveStart none none Protocol.file
        (some { sequence := N, last_run := lr }) = .ok (N + 1)
    ∧ resolveStart none none Protocol.s3
        (some { sequence := N, last_run := lr }) = .ok (N + 1) :=
  ⟨rfl, rfl, rfl, rfl⟩

/-- C5: converting a sequence number to its timestamp and back returns the
same sequence number, for every natural sequence number. -/
theorem timestamp_sequence_roundtrip (n : ℕ) :
    timestampToSequence (sequenceToTimestamp (n : ℚ)) = (n : ℤ) := by
  unfold timestampToSequence sequenceToTimestamp
  have h : (((n : ℚ) * 60 + 1347432900) * 1000 / 1000 - 1347432900) / 60
      = (n : ℚ) := by ring
  rw [h, Int.ceil_natCast]

/-- C7: the sharded data-object key for sequence 42 is
`000/000/042.json.gz` (9-digit zero padding split into three 3-digit
groups), and the section-8 scenario stream `start(42), create(A),
delete(B), end(42)`, annotated and batched, yields exactly one batch for
sequence 42 holding A with `visible = true` and B with `visible = false`,
in order. -/
theorem sharded_key_and_scenario :
    sequencePath 42 = "000/000/042"
    ∧ dataKey "" 42 = "000/000/042.json.gz"
    ∧ (annotateAll [Event.marker "start" 42,
          Event.change "create" [⟨"new", false⟩],
          Event.change "delete" [⟨"new", true⟩],
          Event.marker "end" 42]).map runBatcher
       = some [(some 42,
           [Event.change "create" [⟨"new", true⟩],
            Event.change "delete" [⟨"new", false⟩]])] :=
  ⟨by decide, by decide, by decide⟩

/-- C8 (counterexample): an explicitly supplied starting sequence of `0` is
falsy in `if (options.initialSequence)`, so it is not used verbatim: with a
stored state of sequence 5 the resolver returns 6, not 0. -/
theorem initial_sequence_zero_not_verbatim :
    resolveStart (some 0) none Protocol.file
        (some { sequence := 5, last_run := "t" }) = .ok 6
    ∧ resolveStart (some 0) none Protocol.file
        (some { sequence := 5, last_run := "t" }) ≠ .ok 0 := by
  refine ⟨rfl, ?_⟩
  intro h
  have h6 : resolveStart (some 0) none Protocol.file
      (some { sequence := 5, last_run := "t" }) = .ok 6 := rfl
  rw [h6] at h
  simp at h

/-- C8 (amended): every explicitly supplied non-zero starting sequence is
used verbatim, without consulting the timestamp option or the persisted
state object; a supplied sequence of `0` is treated like an absent
option. -/
theorem nonzero_initial_sequence_verbatim (n : Int) (ts : Option ℚ)
    (proto : Protocol) (st : Option PublishState) (h : n ≠ 0) :
    resolveStart (some n) ts proto st = .ok n := by
  simp [resolveStart, jsTruthy, h]

/-- C8 (witness): the amended theorem applied at sequence 7 with no other
inputs available. -/
theorem nonzero_initial_sequence_verbatim_witness :
    (7 : Int) ≠ 0 ∧ resolveStart (some 7) none Protocol.file none = .ok 7 :=
  ⟨by decide, nonzero_initial_sequence_verbatim 7 none Protocol.file none
    (by decide)⟩
